import Mathlib

/-
Shallow embedding of the numeric/geometric core of the Eidolon renderer
(src/renderer/RenderTypes.h and RenderTypes.cpp).

The C++ type real is double; it is modelled here by the rationals so that
every definition is executable and decidable.  The byte-swap routines act on
bit patterns and are modelled on natural numbers below 2^64 or 2^32.
-/

namespace Eidolon

/-- dEPSILON from RenderTypes.h, 1.0e-10. -/
def dEPSILON : ℚ := 1 / 10000000000

/-- fabs from the C standard library. -/
def fabs (v : ℚ) : ℚ := if v < 0 then -v else v

/-- equalsEpsilon from RenderTypes.h: true when the two values are within
dEPSILON of one another. -/
def equalsEpsilon (v1 v2 : ℚ) : Bool := fabs (v1 - v2) ≤ dEPSILON

/-- The vec3 value type (three real components). -/
structure vec3 where
  x : ℚ
  y : ℚ
  z : ℚ
deriving DecidableEq, Repr

instance : Add vec3 := ⟨fun a b => ⟨a.x + b.x, a.y + b.y, a.z + b.z⟩⟩
instance : Sub vec3 := ⟨fun a b => ⟨a.x - b.x, a.y - b.y, a.z - b.z⟩⟩

/-- vec3 multiplication by a scalar (vec3 operator * (real)). -/
def vec3.smul (v : vec3) (r : ℚ) : vec3 := ⟨v.x * r, v.y * r, v.z * r⟩

/-- vec3 dot product. -/
def vec3.dot (a b : vec3) : ℚ := a.x * b.x + a.y * b.y + a.z * b.z

/-- vec3 cross product. -/
def vec3.cross (a b : vec3) : vec3 :=
  ⟨a.y * b.z - a.z * b.y, a.z * b.x - a.x * b.z, a.x * b.y - a.y * b.x⟩

/-- vec3::setMinVals, returning the componentwise minimum. -/
def vec3.minVals (a b : vec3) : vec3 := ⟨min a.x b.x, min a.y b.y, min a.z b.z⟩

/-- vec3::setMaxVals, returning the componentwise maximum. -/
def vec3.maxVals (a b : vec3) : vec3 := ⟨max a.x b.x, max a.y b.y, max a.z b.z⟩

/-- vec3 operator <, a componentwise comparison slackened by dEPSILON. -/
def vec3.ltE (a b : vec3) : Bool :=
  a.x - dEPSILON < b.x ∧ a.y - dEPSILON < b.y ∧ a.z - dEPSILON < b.z

/-- vec3 operator >, a componentwise comparison slackened by dEPSILON. -/
def vec3.gtE (a b : vec3) : Bool :=
  a.x + dEPSILON > b.x ∧ a.y + dEPSILON > b.y ∧ a.z + dEPSILON > b.z

/-- vec3::inAABB: membership in the axis-aligned box [minv,maxv] with a
dEPSILON margin, implemented in the source as (this > minv) and (this < maxv). -/
def vec3.inAABB (v minv maxv : vec3) : Bool := v.gtE minv && v.ltE maxv

/-- vec3::isInUnitCube with the default margin 0: every component lies on
the closed interval from 0 to 1. -/
def vec3.isInUnitCube (v : vec3) : Bool :=
  0 ≤ v.x ∧ v.x ≤ 1 ∧ 0 ≤ v.y ∧ v.y ≤ 1 ∧ 0 ≤ v.z ∧ v.z ≤ 1

/-- The four coefficients written by basis_Tet1NL. -/
structure coeffs4 where
  c0 : ℚ
  c1 : ℚ
  c2 : ℚ
  c3 : ℚ
deriving DecidableEq, Repr

/-- basis_Tet1NL from RenderTypes.cpp: linear simplex interpolation weights. -/
def basis_Tet1NL (xi0 xi1 xi2 : ℚ) : coeffs4 :=
  ⟨1 - xi0 - xi1 - xi2, xi0, xi1, xi2⟩

/-- The eight coefficients written by basis_Hex1NL. -/
structure coeffs8 where
  c0 : ℚ
  c1 : ℚ
  c2 : ℚ
  c3 : ℚ
  c4 : ℚ
  c5 : ℚ
  c6 : ℚ
  c7 : ℚ
deriving DecidableEq, Repr

/-- basis_Hex1NL from RenderTypes.cpp: trilinear interpolation weights. -/
def basis_Hex1NL (xi0 xi1 xi2 : ℚ) : coeffs8 :=
  let xi012 := xi0 * xi1 * xi2
  let xi12 := xi1 * xi2
  let xi01 := xi0 * xi1
  let xi02 := xi0 * xi2
  ⟨1 - xi0 - xi1 - xi2 + xi01 + xi02 + xi12 - xi012,
   xi0 - xi01 - xi02 + xi012,
   xi1 - xi01 - xi12 + xi012,
   xi01 - xi012,
   xi2 - xi02 - xi12 + xi012,
   xi02 - xi012,
   xi12 - xi012,
   xi012⟩

/-- Sum of the four Tet1NL coefficients. -/
def coeffs4.sum (c : coeffs4) : ℚ := c.c0 + c.c1 + c.c2 + c.c3

/-- Sum of the eight Hex1NL coefficients. -/
def coeffs8.sum (c : coeffs8) : ℚ :=
  c.c0 + c.c1 + c.c2 + c.c3 + c.c4 + c.c5 + c.c6 + c.c7

/--
pointSearchLinTet from RenderTypes.cpp: bounding-box pre-test, then the
closed-form solution of the 3x3 system expressing pt - n1 in the edge basis.
In C++ a zero determinant makes invdet infinite and the resulting xi
components non-finite, so that every later epsilon comparison on them is
false, exactly as for the sentinel; the model returns the sentinel there.
-/
def pointSearchLinTet (pt n1 n2 n3 n4 : vec3) : vec3 :=
  let minv := ((n1.minVals n2).minVals n3).minVals n4
  let maxv := ((n1.maxVals n2).maxVals n3).maxVals n4
  if ¬ pt.inAABB minv maxv then ⟨-1, -1, -1⟩
  else
    let dx := pt.x - n1.x
    let dy := pt.y - n1.y
    let dz := pt.z - n1.z
    let dx2 := n2.x - n1.x
    let dy2 := n2.y - n1.y
    let dz2 := n2.z - n1.z
    let dx3 := n3.x - n1.x
    let dy3 := n3.y - n1.y
    let dz3 := n3.z - n1.z
    let dx4 := n4.x - n1.x
    let dy4 := n4.y - n1.y
    let dz4 := n4.z - n1.z
    let det := dx2 * (dz4 * dy3 - dz3 * dy4) - dy2 * (dz4 * dx3 - dz3 * dx4)
               + dz2 * (dy4 * dx3 - dy3 * dx4)
    if det = 0 then ⟨-1, -1, -1⟩
    else
      let invdet := 1 / det
      let xi1 := invdet * (dx * (dz4 * dy3 - dz3 * dy4) + dy * (dz3 * dx4 - dz4 * dx3)
                 + dz * (dy4 * dx3 - dy3 * dx4))
      let xi2 := invdet * (dx * (dz2 * dy4 - dz4 * dy2) + dy * (dz4 * dx2 - dz2 * dx4)
                 + dz * (dy2 * dx4 - dy4 * dx2))
      let xi3 := invdet * (dx * (dz3 * dy2 - dz2 * dy3) + dy * (dz2 * dx3 - dz3 * dx2)
                 + dz * (dy3 * dx2 - dy2 * dx3))
      ⟨xi1, xi2, xi3⟩

/-- The fixed 5-tetrahedron decomposition table divtets of RenderTypes.cpp:
xi triples of the corners of the 5 tetrahedra dividing a hexahedron. -/
def divtets : List (vec3 × vec3 × vec3 × vec3) :=
  [(⟨0, 0, 0⟩, ⟨1, 0, 1⟩, ⟨1, 1, 0⟩, ⟨0, 1, 1⟩),
   (⟨0, 0, 0⟩, ⟨1, 1, 0⟩, ⟨0, 1, 0⟩, ⟨0, 1, 1⟩),
   (⟨0, 0, 0⟩, ⟨1, 0, 1⟩, ⟨0, 1, 1⟩, ⟨0, 0, 1⟩),
   (⟨1, 0, 1⟩, ⟨1, 1, 0⟩, ⟨0, 1, 1⟩, ⟨1, 1, 1⟩),
   (⟨0, 0, 0⟩, ⟨1, 0, 0⟩, ⟨1, 1, 0⟩, ⟨1, 0, 1⟩)]

/-- The interpolated position of a hexahedron corner-xi triple: the blend of
the 8 hexahedron corners by the Hex1NL coefficients of the triple. -/
def tetFromHex (n1 n2 n3 n4 n5 n6 n7 n8 tt : vec3) : vec3 :=
  let c := basis_Hex1NL tt.x tt.y tt.z
  n1.smul c.c0 + n2.smul c.c1 + n3.smul c.c2 + n4.smul c.c3 +
  n5.smul c.c4 + n6.smul c.c5 + n7.smul c.c6 + n8.smul c.c7

/-- The tetrahedron containment test inside the pointSearchLinHex loop: the
tetrahedron search result is in the unit cube and its components sum to at
most 1 + dEPSILON. -/
def tetXiOk (xi : vec3) : Bool := xi.isInUnitCube && decide (xi.x + xi.y + xi.z ≤ 1 + dEPSILON)

/-- The blend returned by pointSearchLinHex on success: the corner-xi triples
of the containing tetrahedron weighted by the Tet1NL coefficients of xi. -/
def tetXiBlend (tt : vec3 × vec3 × vec3 × vec3) (xi : vec3) : vec3 :=
  let c := basis_Tet1NL xi.x xi.y xi.z
  tt.1.smul c.c0 + tt.2.1.smul c.c1 + tt.2.2.1.smul c.c2 + tt.2.2.2.smul c.c3

/-- One search step per table entry: the for loop of pointSearchLinHex. -/
def hexSearchLoop (pt n1 n2 n3 n4 n5 n6 n7 n8 : vec3) :
    List (vec3 × vec3 × vec3 × vec3) → vec3
  | [] => ⟨-1, -1, -1⟩
  | tt :: rest =>
    let v0 := tetFromHex n1 n2 n3 n4 n5 n6 n7 n8 tt.1
    let v1 := tetFromHex n1 n2 n3 n4 n5 n6 n7 n8 tt.2.1
    let v2 := tetFromHex n1 n2 n3 n4 n5 n6 n7 n8 tt.2.2.1
    let v3 := tetFromHex n1 n2 n3 n4 n5 n6 n7 n8 tt.2.2.2
    let xi := pointSearchLinTet pt v0 v1 v2 v3
    if tetXiOk xi then tetXiBlend tt xi
    else hexSearchLoop pt n1 n2 n3 n4 n5 n6 n7 n8 rest

/-- pointSearchLinHex from RenderTypes.cpp: bounding-box pre-test over the 8
corners, then the 5-tetrahedron search loop over divtets. -/
def pointSearchLinHex (pt n1 n2 n3 n4 n5 n6 n7 n8 : vec3) : vec3 :=
  let minv := ((((((n1.minVals n2).minVals n3).minVals n4).minVals n5).minVals
      n6).minVals n7).minVals n8
  let maxv := ((((((n1.maxVals n2).maxVals n3).maxVals n4).maxVals n5).maxVals
      n6).maxVals n7).maxVals n8
  if ¬ pt.inAABB minv maxv then ⟨-1, -1, -1⟩
  else hexSearchLoop pt n1 n2 n3 n4 n5 n6 n7 n8 divtets

/-- The containment test of one table entry: the tetrahedron-search xi of
the point in the tetrahedron interpolated at the corner-xi triples of the
entry passes the unit-cube and sum test. -/
def tetContains (pt n1 n2 n3 n4 n5 n6 n7 n8 : vec3)
    (tt : vec3 × vec3 × vec3 × vec3) : Bool :=
  tetXiOk (pointSearchLinTet pt
    (tetFromHex n1 n2 n3 n4 n5 n6 n7 n8 tt.1)
    (tetFromHex n1 n2 n3 n4 n5 n6 n7 n8 tt.2.1)
    (tetFromHex n1 n2 n3 n4 n5 n6 n7 n8 tt.2.2.1)
    (tetFromHex n1 n2 n3 n4 n5 n6 n7 n8 tt.2.2.2))

/-- The hex xi returned for one table entry: the blend of its corner-xi
triples by the Tet1NL coefficients of the tetrahedron-search xi. -/
def tetBlendAt (pt n1 n2 n3 n4 n5 n6 n7 n8 : vec3)
    (tt : vec3 × vec3 × vec3 × vec3) : vec3 :=
  tetXiBlend tt (pointSearchLinTet pt
    (tetFromHex n1 n2 n3 n4 n5 n6 n7 n8 tt.1)
    (tetFromHex n1 n2 n3 n4 n5 n6 n7 n8 tt.2.1)
    (tetFromHex n1 n2 n3 n4 n5 n6 n7 n8 tt.2.2.1)
    (tetFromHex n1 n2 n3 n4 n5 n6 n7 n8 tt.2.2.2))

/-- Written from the words of the spec for the hexahedron search: reject by
bounding box, otherwise take the FIRST of the 5 decomposition tetrahedra whose
tetrahedron-search result passes the containment test and blend its corner-xi
triples by the Tet1NL coefficients of that result; the sentinel when none
contains the point. -/
def pointSearchLinHexSpec (pt n1 n2 n3 n4 n5 n6 n7 n8 : vec3) : vec3 :=
  let minv := ((((((n1.minVals n2).minVals n3).minVals n4).minVals n5).minVals
      n6).minVals n7).minVals n8
  let maxv := ((((((n1.maxVals n2).maxVals n3).maxVals n4).maxVals n5).maxVals
      n6).maxVals n7).maxVals n8
  if ¬ pt.inAABB minv maxv then ⟨-1, -1, -1⟩
  else
    match divtets.find? (tetContains pt n1 n2 n3 n4 n5 n6 n7 n8) with
    | some tt => tetBlendAt pt n1 n2 n3 n4 n5 n6 n7 n8 tt
    | none => ⟨-1, -1, -1⟩

/-! Intersection and slicing engine -/

/-- The intersect result type of RenderTypes.h: two cell-vertex indices and
an interpolation fraction along that edge. -/
structure HexIntersect where
  a : ℕ
  b : ℕ
  frac : ℚ
deriving DecidableEq, Repr

/-- The fixed table of the 12 hexahedron edges inside
calculateHexValueIntersects (pairs of vertex indices). -/
def hexEdges : List (ℕ × ℕ) :=
  [(0, 1), (1, 3), (3, 2), (2, 0), (4, 5), (5, 7), (7, 6), (6, 4),
   (0, 4), (1, 5), (2, 6), (3, 7)]

/-- The edge test inside calculateHexValueIntersects: the first endpoint
height is at least val and the second below it, or the first is below val
and the second at least it. -/
def straddles (val h1 h2 : ℚ) : Bool :=
  if val ≤ h1 then h2 < val else val ≤ h2

/-- The recorded entry for one intersected edge: the two vertex indices and
the fraction absvals[i1]/(absvals[i1]+absvals[i2]), 0 when that sum is 0. -/
def hexIntersectEntry (val : ℚ) (vals : List ℚ) (i1 i2 : ℕ) : HexIntersect :=
  let a1 := fabs (val - vals.getD i1 0)
  let a2 := fabs (val - vals.getD i2 0)
  ⟨i1, i2, if a1 + a2 = 0 then 0 else a1 / (a1 + a2)⟩

/-- The edge loop of calculateHexValueIntersects: checks each edge while
fewer than 6 intersections have been recorded. -/
def hexIntLoop (val : ℚ) (vals : List ℚ) :
    List (ℕ × ℕ) → ℕ → List HexIntersect
  | [], _ => []
  | (i1, i2) :: rest, count =>
    if 6 ≤ count then []
    else if straddles val (vals.getD i1 0) (vals.getD i2 0) then
      hexIntersectEntry val vals i1 i2 :: hexIntLoop val vals rest (count + 1)
    else hexIntLoop val vals rest count

/-- calculateHexValueIntersects from RenderTypes.cpp: the recorded list of
intersection entries (the C++ function returns their count and writes them
into the results array). -/
def calculateHexValueIntersects (val : ℚ) (vals : List ℚ) : List HexIntersect :=
  hexIntLoop val vals hexEdges 0

/-- Written from the words of the spec: one entry per edge whose endpoint
heights straddle the threshold, in the fixed edge order. -/
def straddledEdgeEntries (val : ℚ) (vals : List ℚ) : List HexIntersect :=
  hexEdges.filterMap (fun e =>
    if straddles val (vals.getD e.1 0) (vals.getD e.2 0) then
      some (hexIntersectEntry val vals e.1 e.2)
    else none)

/-! Ray query engine.  Ray stores an origin pos and a direction dir that the
constructor normalises; intersectsTri reads those two fields only, so it is
modelled as a function of them. -/

/-- Ray::intersectsTri from RenderTypes.h, the Moller-Trumbore style
triangle intersection returning the triple (t,u,v) on a hit and the
sentinel (-1,-1,-1) otherwise. -/
def intersectsTri (pos dir v0 v1 v2 : vec3) : ℚ × ℚ × ℚ :=
  let e1 := v1 - v0
  let e2 := v2 - v0
  let p := dir.cross e2
  let det := e1.dot p
  if equalsEpsilon det 0 then (-1, -1, -1)
  else
    let invdet := 1 / det
    let t := pos - v0
    let u := p.dot t * invdet
    if u < 0 ∨ u > 1 then (-1, -1, -1)
    else
      let q := t.cross e1
      let v := dir.dot q * invdet
      if v < 0 ∨ u + v > 1 then (-1, -1, -1)
      else
        let len := e2.dot q * invdet
        if len > dEPSILON then (len, u, v)
        else (-1, -1, -1)

/-! The shared numeric matrix.

Matrix of RenderTypes.h is modelled by an explicit state: the logical row
and column counts, the allocated capacity in rows, whether the data pointer
is non-null, the shared flag, the segment name, and the element buffer as a
list.  An allocation counter records every fresh allocation or segment
creation so that no-op claims are expressible.  Operations that throw
return the state reached when the exception leaves together with the error;
a MemException or IndexException value mirrors the C++ exception classes.
-/

/-- The two exception classes of RenderTypes.h: MemException with a message,
IndexException with a name, the offending value and the bound. -/
inductive MErr where
  | memExc : String → MErr
  | indexExc : String → ℕ → ℕ → MErr
deriving DecidableEq, Repr

/-- The state of a Matrix object. -/
structure MatrixSt (α : Type) where
  name : String
  sharedname : String
  n : ℕ
  m : ℕ
  n_actual : ℕ
  dataAlloc : Bool
  isShared : Bool
  allocCount : ℕ
  cells : List α
deriving DecidableEq, Repr

variable {α : Type} [Inhabited α]

/-- Matrix::memSize, sizeof(T)*n*m bytes; sz stands for sizeof(T). -/
def memSize (sz : ℕ) (s : MatrixSt α) : ℕ := sz * (s.n * s.m)

/-- The fresh buffer contents produced by the resize reallocation: the old
capacity worth of elements copied over, the rest zero-initialised. -/
def copyGrow (cells : List α) (oldLen newLen : ℕ) : List α :=
  (cells.take oldLen ++ List.replicate newLen default).take newLen

/-- The new_n_actual computed inside Matrix::resize: the row count when the
data pointer is null (first allocation), else max(1000,(n*3)/2+reserveNum)
with the integer division of the source. -/
def newCapacity (reserveNum : ℕ) (s : MatrixSt α) : ℕ :=
  if s.dataAlloc = false then s.n else max 1000 (s.n * 3 / 2 + reserveNum)

/-- Matrix::resize from RenderTypes.h: no-op when the demanded rows fit and
the matrix is not shared; a reallocation to a smaller capacity is likewise
suppressed for non-shared matrices; otherwise a fresh buffer of newCapacity
rows is allocated and the old contents copied over. -/
def resizeFn (reserveNum : ℕ) (s : MatrixSt α) : MatrixSt α :=
  if s.n + reserveNum ≤ s.n_actual ∧ s.isShared = false then s
  else if newCapacity reserveNum s < s.n_actual ∧ s.isShared = false then s
  else
    { s with n_actual := newCapacity reserveNum s, dataAlloc := true,
             allocCount := s.allocCount + 1,
             cells := if s.dataAlloc then
                        copyGrow s.cells (s.n_actual * s.m)
                          (newCapacity reserveNum s * s.m)
                      else List.replicate (newCapacity reserveNum s * s.m) default }

/-- The MemException thrown by Matrix::checkNotShared. -/
def notSharedErr : MErr := .memExc "Operation may only be performed on non-shared matrices"

/-- Matrix::setN: checkNotShared, then set the row count and resize. -/
def setN (newn : ℕ) (s : MatrixSt α) : MatrixSt α × Option MErr :=
  if s.isShared then (s, some notSharedErr)
  else (resizeFn 0 { s with n := newn }, none)

/-- Matrix::addRows: setN(n+num). -/
def addRows (num : ℕ) (s : MatrixSt α) : MatrixSt α × Option MErr :=
  setN (s.n + num) s

/-- Matrix::reserveRows: checkNotShared, then resize(num). -/
def reserveRows (num : ℕ) (s : MatrixSt α) : MatrixSt α × Option MErr :=
  if s.isShared then (s, some notSharedErr)
  else (resizeFn num s, none)

/-- Matrix::append(const T&,sval): addRows(1) then write the value at cell
(n-1,mcol) through the unchecked accessor at. -/
def appendVal (v : α) (mcol : ℕ) (s : MatrixSt α) : MatrixSt α × Option MErr :=
  match addRows 1 s with
  | (s1, some e) => (s1, some e)
  | (s1, none) =>
    ({ s1 with cells := s1.cells.set (mcol + s1.m * (s1.n - 1)) v }, none)

/-- Overwrite the slice of a list beginning at start with the given source,
the model of memcpy into the middle of the buffer. -/
def overwriteAt (l : List α) (start : ℕ) (src : List α) : List α :=
  l.take start ++ src ++ l.drop (start + src.length)

/-- Matrix::append(const Matrix&): a MemException when the column counts
differ, otherwise addRows by the argument row count and a bulk copy of the
argument buffer at row oldn. -/
def appendMat (t : MatrixSt α) (s : MatrixSt α) : MatrixSt α × Option MErr :=
  if t.m ≠ s.m then (s, some (.memExc "Column dimensions of this and t do not match"))
  else
    match addRows t.n s with
    | (s1, some e) => (s1, some e)
    | (s1, none) =>
      ({ s1 with cells := overwriteAt s1.cells (s.m * s.n) (t.cells.take (t.n * t.m)) }, none)

/-- The model of chooseSharedName: the real name derives from the process
and parent-process ids, which are outside the model, plus the matrix name
with slash sanitisation; only its dependence on the matrix name is kept. -/
def mkSharedName (name : String) : String := "__viz__" ++ name

/-- Matrix::setShared from RenderTypes.h: a no-op when storage is allocated
and the requested mode already holds; making shared rejects an empty
matrix, otherwise sets the capacity to n, creates and fills a fresh shared
segment and releases the local buffer; making local reallocates a local
buffer via resize, then closeShared clears the segment name. -/
def setShared (sz : ℕ) (val : Bool) (s : MatrixSt α) : MatrixSt α × Option MErr :=
  if s.dataAlloc = true ∧ val = s.isShared then (s, none)
  else if val then
    if memSize sz s = 0 then (s, some (.memExc "Cannot make empty matrix shared"))
    else
      let len := s.n * s.m
      ({ s with n_actual := s.n, dataAlloc := true, isShared := true,
                allocCount := s.allocCount + 1,
                sharedname := mkSharedName s.name,
                cells := if s.dataAlloc then copyGrow s.cells len len
                         else List.replicate len default }, none)
  else
    let s1 := resizeFn 0 s
    let s2 := if s.dataAlloc then { s1 with sharedname := "" } else s1
    ({ s2 with isShared := false }, none)

/-- The first out-of-range entry among the first m order indices, scanned as
the checkIndex loop of Matrix::reorderColumns does. -/
def firstBadIndex (orderinds : List ℕ) (m : ℕ) : Option ℕ :=
  (List.range m).find? (fun j => m ≤ orderinds.getD j 0)

/-- The permuted buffer written by Matrix::reorderColumns: for every row i
below n, cell (i,j) receives the old cell (i,orderinds[j]); rows beyond n
are untouched. -/
def reorderCells (cells : List α) (orderinds : List ℕ) (n m : ℕ) : List α :=
  (List.range n).flatMap (fun i =>
    (List.range m).map (fun j => cells.getD (i * m + orderinds.getD j 0) default))
  ++ cells.drop (n * m)

/-- Matrix::reorderColumns from RenderTypes.h: checkIndex on each of the
first m order indices (throwing IndexException at the first that reaches
m), then the in-place column permutation of every row. -/
def reorderColumns (orderinds : List ℕ) (s : MatrixSt α) : MatrixSt α × Option MErr :=
  match firstBadIndex orderinds s.m with
  | some j => (s, some (.indexExc "sortinds" (orderinds.getD j 0) s.m))
  | none => ({ s with cells := reorderCells s.cells orderinds s.n s.m }, none)

/-! Endian conversion.

swapEndian64 and swapEndian32 of RenderTypes.h reverse the bytes of an 8 or
4 byte object; an object is modelled by its bit pattern, a natural number
below 2^64 or 2^32, and the reversal is written out byte by byte exactly as
the dst.b assignments of the source are. -/

/-- swapEndian64: byte k of the result is byte 7-k of the argument. -/
def swapEndian64 (t : ℕ) : ℕ :=
  t / 72057594037927936 % 256
  + (t / 281474976710656 % 256) * 256
  + (t / 1099511627776 % 256) * 65536
  + (t / 4294967296 % 256) * 16777216
  + (t / 16777216 % 256) * 4294967296
  + (t / 65536 % 256) * 1099511627776
  + (t / 256 % 256) * 281474976710656
  + (t % 256) * 72057594037927936

/-- swapEndian32: byte k of the result is byte 3-k of the argument. -/
def swapEndian32 (t : ℕ) : ℕ :=
  t / 16777216 % 256
  + (t / 65536 % 256) * 256
  + (t / 256 % 256) * 65536
  + (t % 256) * 16777216

/-- The supported matrix element types, each carried as bit patterns: real
(one 64-bit double), indexval (one 32-bit unsigned), vec3 (three doubles)
and color (four 32-bit floats). -/
inductive MElem where
  | realv : ℕ → MElem
  | indexv : ℕ → MElem
  | vec3v : ℕ → ℕ → ℕ → MElem
  | colorv : ℕ → ℕ → ℕ → ℕ → MElem
deriving DecidableEq, Repr

/-- Well-formed bit patterns: each component fits its width. -/
def MElem.wf : MElem → Bool
  | .realv a => a < 18446744073709551616
  | .indexv a => a < 4294967296
  | .vec3v a b c => a < 18446744073709551616 && b < 18446744073709551616 &&
      c < 18446744073709551616
  | .colorv r g b a => r < 4294967296 && g < 4294967296 && b < 4294967296 &&
      a < 4294967296

instance : Inhabited MElem := ⟨.realv 0⟩

/-- The SwapEndian specialisations of RenderTypes.h: 64-bit swap for real,
32-bit swap for indexval, componentwise for vec3 and color. -/
def swapElem : MElem → MElem
  | .realv a => .realv (swapEndian64 a)
  | .indexv a => .indexv (swapEndian32 a)
  | .vec3v a b c => .vec3v (swapEndian64 a) (swapEndian64 b) (swapEndian64 c)
  | .colorv r g b a => .colorv (swapEndian32 r) (swapEndian32 g)
      (swapEndian32 b) (swapEndian32 a)

/-- Matrix::swapEndian: every cell data[i] for i below n*m is replaced by
its type-specific swap; cells beyond the logical size are untouched. -/
def matSwapEndian (s : MatrixSt MElem) : MatrixSt MElem :=
  { s with cells := (s.cells.take (s.n * s.m)).map swapElem
                    ++ s.cells.drop (s.n * s.m) }

/-! Supporting lemmas for the byte-swap involution -/

/-- The value of an 8-byte object with the given bytes, least significant
first. -/
def byteSum8 (b0 b1 b2 b3 b4 b5 b6 b7 : ℕ) : ℕ :=
  b0 + b1 * 256 + b2 * 65536 + b3 * 16777216 + b4 * 4294967296
    + b5 * 1099511627776 + b6 * 281474976710656 + b7 * 72057594037927936

/-- All eight bytes below 256. -/
def bytesLt (b0 b1 b2 b3 b4 b5 b6 b7 : ℕ) : Prop :=
  b0 < 256 ∧ b1 < 256 ∧ b2 < 256 ∧ b3 < 256 ∧ b4 < 256 ∧ b5 < 256 ∧
    b6 < 256 ∧ b7 < 256

theorem byteSum8_e0 (b0 b1 b2 b3 b4 b5 b6 b7 : ℕ) (h : bytesLt b0 b1 b2 b3 b4 b5 b6 b7) :
    byteSum8 b0 b1 b2 b3 b4 b5 b6 b7 % 256 = b0 := by
  unfold byteSum8 bytesLt at *; omega

theorem byteSum8_e1 (b0 b1 b2 b3 b4 b5 b6 b7 : ℕ) (h : bytesLt b0 b1 b2 b3 b4 b5 b6 b7) :
    byteSum8 b0 b1 b2 b3 b4 b5 b6 b7 / 256 % 256 = b1 := by
  unfold byteSum8 bytesLt at *; omega

theorem byteSum8_e2 (b0 b1 b2 b3 b4 b5 b6 b7 : ℕ) (h : bytesLt b0 b1 b2 b3 b4 b5 b6 b7) :
    byteSum8 b0 b1 b2 b3 b4 b5 b6 b7 / 65536 % 256 = b2 := by
  unfold byteSum8 bytesLt at *; omega

theorem byteSum8_e3 (b0 b1 b2 b3 b4 b5 b6 b7 : ℕ) (h : bytesLt b0 b1 b2 b3 b4 b5 b6 b7) :
    byteSum8 b0 b1 b2 b3 b4 b5 b6 b7 / 16777216 % 256 = b3 := by
  unfold byteSum8 bytesLt at *; omega

theorem byteSum8_e4 (b0 b1 b2 b3 b4 b5 b6 b7 : ℕ) (h : bytesLt b0 b1 b2 b3 b4 b5 b6 b7) :
    byteSum8 b0 b1 b2 b3 b4 b5 b6 b7 / 4294967296 % 256 = b4 := by
  unfold byteSum8 bytesLt at *; omega

theorem byteSum8_e5 (b0 b1 b2 b3 b4 b5 b6 b7 : ℕ) (h : bytesLt b0 b1 b2 b3 b4 b5 b6 b7) :
    byteSum8 b0 b1 b2 b3 b4 b5 b6 b7 / 1099511627776 % 256 = b5 := by
  unfold byteSum8 bytesLt at *; omega

theorem byteSum8_e6 (b0 b1 b2 b3 b4 b5 b6 b7 : ℕ) (h : bytesLt b0 b1 b2 b3 b4 b5 b6 b7) :
    byteSum8 b0 b1 b2 b3 b4 b5 b6 b7 / 281474976710656 % 256 = b6 := by
  unfold byteSum8 bytesLt at *; omega

theorem byteSum8_e7 (b0 b1 b2 b3 b4 b5 b6 b7 : ℕ) (h : bytesLt b0 b1 b2 b3 b4 b5 b6 b7) :
    byteSum8 b0 b1 b2 b3 b4 b5 b6 b7 / 72057594037927936 % 256 = b7 := by
  unfold byteSum8 bytesLt at *; omega

/-- swapEndian64 on an explicit byte decomposition reverses the bytes. -/
theorem swap64_byteSum (b0 b1 b2 b3 b4 b5 b6 b7 : ℕ)
    (h : bytesLt b0 b1 b2 b3 b4 b5 b6 b7) :
    swapEndian64 (byteSum8 b0 b1 b2 b3 b4 b5 b6 b7)
      = byteSum8 b7 b6 b5 b4 b3 b2 b1 b0 := by
  unfold swapEndian64
  rw [byteSum8_e0 _ _ _ _ _ _ _ _ h, byteSum8_e1 _ _ _ _ _ _ _ _ h,
      byteSum8_e2 _ _ _ _ _ _ _ _ h, byteSum8_e3 _ _ _ _ _ _ _ _ h,
      byteSum8_e4 _ _ _ _ _ _ _ _ h, byteSum8_e5 _ _ _ _ _ _ _ _ h,
      byteSum8_e6 _ _ _ _ _ _ _ _ h, byteSum8_e7 _ _ _ _ _ _ _ _ h]
  unfold byteSum8
  ring

/-- The 64-bit byte swap is an involution on 64-bit patterns. -/
theorem swap64_swap64 (t : ℕ) (h : t < 18446744073709551616) :
    swapEndian64 (swapEndian64 t) = t := by
  have hb : bytesLt (t % 256) (t / 256 % 256) (t / 65536 % 256) (t / 16777216 % 256)
      (t / 4294967296 % 256) (t / 1099511627776 % 256) (t / 281474976710656 % 256)
      (t / 72057594037927936 % 256) := by
    unfold bytesLt; omega
  have hrev : bytesLt (t / 72057594037927936 % 256) (t / 281474976710656 % 256)
      (t / 1099511627776 % 256) (t / 4294967296 % 256) (t / 16777216 % 256)
      (t / 65536 % 256) (t / 256 % 256) (t % 256) := by
    unfold bytesLt; omega
  have ht : t = byteSum8 (t % 256) (t / 256 % 256) (t / 65536 % 256) (t / 16777216 % 256)
      (t / 4294967296 % 256) (t / 1099511627776 % 256) (t / 281474976710656 % 256)
      (t / 72057594037927936 % 256) := by
    unfold byteSum8; omega
  rw [ht, swap64_byteSum _ _ _ _ _ _ _ _ hb, swap64_byteSum _ _ _ _ _ _ _ _ hrev]

/-- swapEndian32 on an explicit byte decomposition reverses the bytes. -/
theorem swap32_bytes (b0 b1 b2 b3 : ℕ)
    (h0 : b0 < 256) (h1 : b1 < 256) (h2 : b2 < 256) (h3 : b3 < 256) :
    swapEndian32 (b0 + b1 * 256 + b2 * 65536 + b3 * 16777216)
    = b3 + b2 * 256 + b1 * 65536 + b0 * 16777216 := by
  unfold swapEndian32
  omega

/-- The 32-bit byte swap is an involution on 32-bit patterns. -/
theorem swap32_swap32 (t : ℕ) (h : t < 4294967296) :
    swapEndian32 (swapEndian32 t) = t := by
  have h0 : t % 256 < 256 := Nat.mod_lt _ (by norm_num)
  have h1 : t / 256 % 256 < 256 := Nat.mod_lt _ (by norm_num)
  have h2 : t / 65536 % 256 < 256 := Nat.mod_lt _ (by norm_num)
  have h3 : t / 16777216 % 256 < 256 := Nat.mod_lt _ (by norm_num)
  have ht : t = t % 256 + t / 256 % 256 * 256 + t / 65536 % 256 * 65536
      + t / 16777216 % 256 * 16777216 := by omega
  rw [ht, swap32_bytes _ _ _ _ h0 h1 h2 h3, swap32_bytes _ _ _ _ h3 h2 h1 h0]

/-- The element-level swap is an involution on well-formed elements. -/
theorem swapElem_swapElem (e : MElem) (h : e.wf = true) :
    swapElem (swapElem e) = e := by
  cases e with
  | realv a =>
    simp only [MElem.wf, decide_eq_true_eq] at h
    simp only [swapElem, swap64_swap64 a h]
  | indexv a =>
    simp only [MElem.wf, decide_eq_true_eq] at h
    simp only [swapElem, swap32_swap32 a h]
  | vec3v a b c =>
    simp only [MElem.wf, Bool.and_eq_true, decide_eq_true_eq] at h
    simp only [swapElem, swap64_swap64 a h.1.1, swap64_swap64 b h.1.2,
      swap64_swap64 c h.2]
  | colorv r g b a =>
    simp only [MElem.wf, Bool.and_eq_true, decide_eq_true_eq] at h
    simp only [swapElem, swap32_swap32 r h.1.1.1, swap32_swap32 g h.1.1.2,
      swap32_swap32 b h.1.2, swap32_swap32 a h.2]

/-- A map by an elementwise involution of the first len cells, applied
twice, restores a list. -/
theorem swapcells_twice (len : ℕ) (l : List MElem) (g : MElem → MElem)
    (h : ∀ e ∈ l, g (g e) = e) :
    (((((l.take len).map g ++ l.drop len).take len).map g
      ++ ((l.take len).map g ++ l.drop len).drop len)) = l := by
  rcases le_or_lt len l.length with hle | hlt
  · have h1 : ((l.take len).map g).length = len := by
      rw [List.length_map, List.length_take]; omega
    rw [List.take_left' h1, List.drop_left' h1, List.map_map]
    have h2 : (l.take len).map (g ∘ g) = (l.take len).map id := by
      apply List.map_congr_left
      intro a ha
      exact h a (List.mem_of_mem_take ha)
    rw [h2, List.map_id, List.take_append_drop]
  · have hd : l.drop len = [] := by
      apply List.drop_eq_nil_of_le; omega
    have ht : l.take len = l := List.take_of_length_le (by omega)
    rw [hd, ht, List.append_nil]
    rw [List.take_of_length_le (by rw [List.length_map]; omega),
      List.drop_eq_nil_of_le (by rw [List.length_map]; omega),
      List.append_nil, List.map_map]
    have h2 : l.map (g ∘ g) = l.map id := by
      apply List.map_congr_left
      intro a ha
      exact h a ha
    rw [h2, List.map_id]

/-- C2: for every input xi triple, inside the unit cube or not, the 4
coefficients written by basis_Tet1NL sum to exactly 1, and the 8
coefficients written by basis_Hex1NL sum to 1 within 1e-9 (they in fact sum
to exactly 1). -/
theorem basisFunctions_sum_one (xi0 xi1 xi2 : ℚ) :
    (basis_Tet1NL xi0 xi1 xi2).sum = 1 ∧
    |(basis_Hex1NL xi0 xi1 xi2).sum - 1| ≤ 1 / 1000000000 := by
  have h4 : (basis_Tet1NL xi0 xi1 xi2).sum = 1 := by
    unfold basis_Tet1NL coeffs4.sum
    ring
  have h8 : (basis_Hex1NL xi0 xi1 xi2).sum = 1 := by
    unfold basis_Hex1NL coeffs8.sum
    ring
  refine ⟨h4, ?_⟩
  rw [h8]
  norm_num

/-- C7: for every element of each supported type, real (64-bit swap),
indexval (32-bit swap), vec3 and color (componentwise swap), the byte swap
is an involution, and applying Matrix::swapEndian twice restores every cell
of any matrix to its original value. -/
theorem swapEndian_roundtrip :
    (∀ e : MElem, e.wf = true → swapElem (swapElem e) = e) ∧
    (∀ s : MatrixSt MElem, (∀ e ∈ s.cells, e.wf = true) →
      matSwapEndian (matSwapEndian s) = s) := by
  refine ⟨swapElem_swapElem, ?_⟩
  intro s h
  show ({ s with cells := _ } : MatrixSt MElem) = s
  have key := swapcells_twice (s.n * s.m) s.cells swapElem
    (fun e he => swapElem_swapElem e (h e he))
  calc ({ s with cells := (((s.cells.take (s.n * s.m)).map swapElem
          ++ s.cells.drop (s.n * s.m)).take (s.n * s.m)).map swapElem
          ++ ((s.cells.take (s.n * s.m)).map swapElem
          ++ s.cells.drop (s.n * s.m)).drop (s.n * s.m) } : MatrixSt MElem)
      = { s with cells := s.cells } := by rw [key]
    _ = s := rfl

/-- Witness for C7 at one concrete element of each type and a concrete
2 by 2 matrix. -/
theorem swapEndian_roundtrip_witness :
    swapElem (swapElem (.vec3v 1 2 18446744073709551615)) = .vec3v 1 2 18446744073709551615 ∧
    matSwapEndian (matSwapEndian
      { name := "w", sharedname := "", n := 2, m := 2, n_actual := 2,
        dataAlloc := true, isShared := false, allocCount := 1,
        cells := [.realv 3, .indexv 4294967295, .vec3v 5 6 7, .colorv 8 9 10 11] })
      = { name := "w", sharedname := "", n := 2, m := 2, n_actual := 2,
          dataAlloc := true, isShared := false, allocCount := 1,
          cells := [.realv 3, .indexv 4294967295, .vec3v 5 6 7, .colorv 8 9 10 11] } :=
  ⟨swapEndian_roundtrip.1 _ (by decide),
   swapEndian_roundtrip.2 _ (by decide)⟩

/-- C4: on a matrix in shared mode, append of a single value and append of
another matrix both end in a MemException, thrown before any mutation: the
state handed back with the error is exactly the original one, so the row
count, column count and every stored element are unchanged.  A column
mismatch on matrix append also throws a MemException, again with the state
unchanged. -/
theorem sharedAppend_error (α : Type) [Inhabited α] (s t : MatrixSt α)
    (v : α) (mcol : ℕ) (hsh : s.isShared = true) :
    appendVal v mcol s = (s, some notSharedErr) ∧
    (t.m = s.m → appendMat t s = (s, some notSharedErr)) ∧
    (t.m ≠ s.m →
      appendMat t s = (s, some (.memExc "Column dimensions of this and t do not match"))) := by
  refine ⟨?_, ?_, ?_⟩
  · unfold appendVal addRows setN
    rw [hsh]
    simp
  · intro htm
    unfold appendMat addRows setN
    rw [hsh]
    simp [htm]
  · intro htm
    unfold appendMat
    simp [htm]

/-- Witness for C4 on a concrete shared 2 by 2 matrix. -/
theorem sharedAppend_error_witness :
    appendVal (7 : ℕ) 0
      { name := "s", sharedname := "__viz__s", n := 2, m := 2, n_actual := 2,
        dataAlloc := true, isShared := true, allocCount := 1,
        cells := [1, 2, 3, 4] }
      = ({ name := "s", sharedname := "__viz__s", n := 2, m := 2, n_actual := 2,
           dataAlloc := true, isShared := true, allocCount := 1,
           cells := [1, 2, 3, 4] }, some notSharedErr) :=
  (sharedAppend_error ℕ
    { name := "s", sharedname := "__viz__s", n := 2, m := 2, n_actual := 2,
      dataAlloc := true, isShared := true, allocCount := 1,
      cells := [1, 2, 3, 4] }
    { name := "t", sharedname := "", n := 1, m := 2, n_actual := 1,
      dataAlloc := true, isShared := false, allocCount := 1,
      cells := [5, 6] } 7 0 (by decide)).1

/-- After setShared(sz,true) succeeds the matrix has storage and is shared. -/
theorem setShared_true_mode (α : Type) [Inhabited α] (sz : ℕ)
    (s s1 : MatrixSt α) (h : setShared sz true s = (s1, none)) :
    s1.dataAlloc = true ∧ s1.isShared = true := by
  unfold setShared at h
  by_cases hg : (s.dataAlloc = true ∧ true = s.isShared)
  · rw [if_pos hg] at h
    have h1 := congrArg Prod.fst h
    simp only at h1
    subst h1
    exact ⟨hg.1, hg.2.symm⟩
  · rw [if_neg hg] at h
    simp only [if_true] at h
    by_cases hm : memSize sz s = 0
    · rw [if_pos hm] at h
      exact absurd (congrArg Prod.snd h) (by simp)
    · rw [if_neg hm] at h
      have h1 := congrArg Prod.fst h
      simp only at h1
      subst h1
      exact ⟨rfl, rfl⟩

/-- C8: with storage allocated, setShared with the mode already held is a
no-op: the state (capacity, buffer, segment name, allocation count) is
returned untouched and no error arises; in particular after a successful
setShared(true), a second setShared(true) returns the state unchanged. -/
theorem setShared_idempotent (α : Type) [Inhabited α] (sz : ℕ) :
    (∀ (s : MatrixSt α) (val : Bool), s.dataAlloc = true → val = s.isShared →
      setShared sz val s = (s, none)) ∧
    (∀ s s1 : MatrixSt α, setShared sz true s = (s1, none) →
      setShared sz true s1 = (s1, none)) := by
  have base : ∀ (s : MatrixSt α) (val : Bool), s.dataAlloc = true → val = s.isShared →
      setShared sz val s = (s, none) := by
    intro s val hd hv
    unfold setShared
    rw [if_pos ⟨hd, hv⟩]
  refine ⟨base, ?_⟩
  intro s s1 h
  obtain ⟨hd, hsh⟩ := setShared_true_mode α sz s s1 h
  exact base s1 true hd hsh.symm

/-- Witness for C8: a local 1 by 1 matrix made shared, then setShared(true)
again, is returned unchanged with no new allocation. -/
theorem setShared_idempotent_witness :
    setShared 8 true
      { name := "i", sharedname := "__viz__i", n := 1, m := 1, n_actual := 1,
        dataAlloc := true, isShared := true, allocCount := 2,
        cells := [(5 : ℕ)] }
      = ({ name := "i", sharedname := "__viz__i", n := 1, m := 1, n_actual := 1,
           dataAlloc := true, isShared := true, allocCount := 2,
           cells := [(5 : ℕ)] }, none) :=
  (setShared_idempotent ℕ 8).1
    { name := "i", sharedname := "__viz__i", n := 1, m := 1, n_actual := 1,
      dataAlloc := true, isShared := true, allocCount := 2,
      cells := [(5 : ℕ)] } true (by decide) (by decide)

/-- C10: setShared(true) on a matrix with zero elements (zero rows or zero
columns, hence memSize 0) throws the MemException for empty matrices before
any segment is created: the state comes back with the error untouched, so
no shared segment name is chosen and the allocation count is unchanged. -/
theorem setShared_empty_error (α : Type) [Inhabited α] (sz : ℕ)
    (s : MatrixSt α) (_hsz : 0 < sz) (hsh : s.isShared = false)
    (hnm : s.n * s.m = 0) :
    setShared sz true s = (s, some (.memExc "Cannot make empty matrix shared")) := by
  unfold setShared
  have h1 : ¬(s.dataAlloc = true ∧ true = s.isShared) := by
    rw [hsh]
    simp
  rw [if_neg h1, if_pos rfl]
  have h2 : memSize sz s = 0 := by
    unfold memSize
    rw [hnm, Nat.mul_zero]
  rw [if_pos h2]

/-- Witness for C10 on a concrete freshly created 0 by 3 local matrix. -/
theorem setShared_empty_error_witness :
    setShared 8 true
      { name := "e", sharedname := "", n := 0, m := 3, n_actual := 0,
        dataAlloc := false, isShared := false, allocCount := 0,
        cells := ([] : List ℕ) }
      = ({ name := "e", sharedname := "", n := 0, m := 3, n_actual := 0,
           dataAlloc := false, isShared := false, allocCount := 0,
           cells := ([] : List ℕ) }, some (.memExc "Cannot make empty matrix shared")) :=
  setShared_empty_error ℕ 8
    { name := "e", sharedname := "", n := 0, m := 3, n_actual := 0,
      dataAlloc := false, isShared := false, allocCount := 0,
      cells := ([] : List ℕ) } (by decide) (by decide) (by decide)

/-- A fresh local matrix created with 0 rows and 1 column: the constructor
calls setShared(false), whose resize does nothing for 0 rows, so no buffer
is allocated. -/
def freshMat : MatrixSt ℕ :=
  { name := "ctr", sharedname := "", n := 0, m := 1, n_actual := 0,
    dataAlloc := false, isShared := false, allocCount := 0, cells := [] }

/-- A local matrix created with 666 rows and 1 column: the first allocation
is exactly the size needed, so the capacity is 666 rows. -/
def mat666 : MatrixSt ℕ :=
  { name := "ctr2", sharedname := "", n := 666, m := 1, n_actual := 666,
    dataAlloc := true, isShared := false, allocCount := 1,
    cells := List.replicate 666 0 }

/-- C3 counterexample: the claimed formula max(1000, ceil(rows*1.5)+requested)
is wrong twice over.  Appending one value to a fresh 0-row matrix grows it
to 1 row and the first allocation sizes the buffer at exactly 1 row, not
max(1000, ceil(1*1.5)) = 1000; appending one value to a 666-row matrix with
full capacity reallocates to max(1000, (667*3)/2) = 1000 rows, while the
claimed ceiling formula gives max(1000, ceil(667*1.5)) = 1001 (the source
computes (n*3)/2 in integer division, a floor). -/
theorem growthPolicy_counterexample :
    ((appendVal 7 0 freshMat).1.n_actual = 1 ∧ (1 : ℕ) ≠ max 1000 ((1 * 3 + 1) / 2)) ∧
    ((appendVal 7 0 mat666).1.n_actual = 1000 ∧
      (1000 : ℕ) ≠ max 1000 ((667 * 3 + 1) / 2)) := by
  refine ⟨⟨?_, by decide⟩, ⟨?_, by decide⟩⟩
  · decide
  · show (resizeFn 0 { mat666 with n := 667 }).n_actual = 1000
    decide

/-- The capacity after resize, written without the buffer bookkeeping. -/
theorem resizeFn_n_actual (α : Type) [Inhabited α] (r : ℕ) (s : MatrixSt α) :
    (resizeFn r s).n_actual =
      if s.n + r ≤ s.n_actual ∧ s.isShared = false then s.n_actual
      else if newCapacity r s < s.n_actual ∧ s.isShared = false then s.n_actual
      else newCapacity r s := by
  unfold resizeFn
  split_ifs <;> rfl

/-- appendVal changes no capacity beyond what addRows does. -/
theorem appendVal_n_actual (α : Type) [Inhabited α] (v : α) (mcol : ℕ)
    (s : MatrixSt α) :
    (appendVal v mcol s).1.n_actual = (addRows 1 s).1.n_actual := by
  unfold appendVal
  rcases h : addRows 1 s with ⟨s1, e⟩
  cases e
  · rfl
  · rfl

/-- C3 amended: when a resize is forced on a non-shared matrix that already
has a buffer because n+reserved exceeds the capacity, the new capacity is
max(1000, (n*3)/2 + reserved) rows with an integer (floor) division; the
very first allocation sizes the buffer at exactly n rows; and no resize or
row-adding operation ever reduces the capacity. -/
theorem growthPolicy_amended (α : Type) [Inhabited α] :
    (∀ (s : MatrixSt α) (r : ℕ), s.isShared = false → s.dataAlloc = true →
      s.n_actual < s.n + r →
      (resizeFn r s).n_actual = max 1000 (s.n * 3 / 2 + r)) ∧
    (∀ (s : MatrixSt α) (r : ℕ), s.isShared = false → s.dataAlloc = false →
      s.n_actual = 0 → (resizeFn r s).n_actual = s.n) ∧
    (∀ (s : MatrixSt α) (r : ℕ), s.isShared = false →
      s.n_actual ≤ (resizeFn r s).n_actual) ∧
    (∀ (s : MatrixSt α) (k : ℕ), s.n_actual ≤ ((setN k s).1.n_actual) ∧
      s.n_actual ≤ ((reserveRows k s).1.n_actual) ∧
      ∀ v : α, s.n_actual ≤ ((appendVal v k s).1.n_actual)) := by
  have mono : ∀ (s : MatrixSt α) (r : ℕ), s.isShared = false →
      s.n_actual ≤ (resizeFn r s).n_actual := by
    intro s r hsh
    rw [resizeFn_n_actual]
    split_ifs with h1 h2
    · exact le_refl _
    · exact le_refl _
    · have h2b : ¬ newCapacity r s < s.n_actual := by
        intro hx
        exact h2 ⟨hx, hsh⟩
      omega
  refine ⟨?_, ?_, mono, ?_⟩
  · intro s r hsh hd hlt
    have hcap : newCapacity r s = max 1000 (s.n * 3 / 2 + r) := by
      unfold newCapacity
      rw [hd]
      simp
    rw [resizeFn_n_actual]
    rw [if_neg (by rintro ⟨hle, -⟩; omega)]
    rw [if_neg ?_, hcap]
    rintro ⟨hlt2, -⟩
    rw [hcap] at hlt2
    have hm1 := le_max_left 1000 (s.n * 3 / 2 + r)
    have hm2 := le_max_right 1000 (s.n * 3 / 2 + r)
    omega
  · intro s r hsh hd hna
    have hcap : newCapacity r s = s.n := by
      unfold newCapacity
      rw [hd]
      simp
    rw [resizeFn_n_actual, hcap, hna]
    split_ifs with h1 h2
    · rcases h1 with ⟨h1a, -⟩
      omega
    · rcases h2 with ⟨h2a, -⟩
      omega
    · rfl
  · intro s k
    refine ⟨?_, ?_, ?_⟩
    · unfold setN
      split_ifs with h1
      · exact le_refl _
      · exact mono { s with n := k } 0 (by simpa using h1)
    · unfold reserveRows
      split_ifs with h1
      · exact le_refl _
      · exact mono s k (by simpa using h1)
    · intro v
      rw [appendVal_n_actual]
      unfold addRows setN
      split_ifs with h1
      · exact le_refl _
      · exact mono { s with n := s.n + 1 } 0 (by simpa using h1)

/-- Witness for C3 amended, on a full 4-row matrix being grown by one
reserved row and on monotonicity at a concrete state. -/
theorem growthPolicy_amended_witness :
    (resizeFn 1
      { name := "g", sharedname := "", n := 4, m := 1, n_actual := 4,
        dataAlloc := true, isShared := false, allocCount := 1,
        cells := [1, 2, 3, 4] }).n_actual = max 1000 (4 * 3 / 2 + 1) ∧
    (resizeFn 0 freshMat).n_actual = freshMat.n :=
  ⟨(growthPolicy_amended ℕ).1
    { name := "g", sharedname := "", n := 4, m := 1, n_actual := 4,
      dataAlloc := true, isShared := false, allocCount := 1,
      cells := [1, 2, 3, 4] } 1 (by decide) (by decide) (by decide),
   (growthPolicy_amended ℕ).2.1 freshMat 0 (by decide) (by decide) (by decide)⟩

/-- Length of a rectangular flatMap over ranges. -/
theorem rangeFlatMap_length {β : Type} (k m : ℕ) (f : ℕ → ℕ → β) :
    ((List.range k).flatMap (fun i => (List.range m).map (f i))).length = k * m := by
  induction k with
  | zero => simp
  | succ j ih =>
    rw [List.range_succ, List.flatMap_append, List.length_append, ih]
    simp [Nat.succ_mul]

/-- Indexing a rectangular flatMap over ranges at row-major position. -/
theorem rangeFlatMap_getElem {β : Type} (n m : ℕ) (f : ℕ → ℕ → β) (i j : ℕ)
    (hi : i < n) (hj : j < m) :
    ((List.range n).flatMap (fun i => (List.range m).map (f i)))[i * m + j]?
      = some (f i j) := by
  induction n with
  | zero => omega
  | succ k ih =>
    rw [List.range_succ, List.flatMap_append, List.getElem?_append, rangeFlatMap_length]
    rcases Nat.lt_or_ge i k with h | h
    · rw [if_pos ?_]
      · exact ih h
      · have h2 : i * m + j < (i + 1) * m := by
          simp [Nat.add_mul]
          omega
        calc i * m + j < (i + 1) * m := h2
          _ ≤ k * m := Nat.mul_le_mul_right m (by omega)
    · have hik : i = k := by omega
      subst hik
      rw [if_neg (by omega)]
      have hk : i * m + j - i * m = j := by omega
      rw [hk]
      simp [List.getElem?_map, List.getElem?_range hj]

/-- A matrix of 1 row and 2 columns holding 10 and 20, with the order
array (0,0) that repeats column 0 and omits column 1. -/
def rcdup : MatrixSt ℕ :=
  { name := "rc", sharedname := "", n := 1, m := 2, n_actual := 1,
    dataAlloc := true, isShared := false, allocCount := 1, cells := [10, 20] }

/-- C9 counterexample: reorderColumns with the repeating order array (0,0)
on a 2-column matrix raises no error at all and duplicates column 0 into
both columns; the validation loop only bounds-checks each index, it does
not reject repeated or omitted column indices. -/
theorem reorderColumns_counterexample :
    (reorderColumns [0, 0] rcdup).2 = none ∧
    (reorderColumns [0, 0] rcdup).1.cells = [10, 10] := by
  decide

/-- C9 amended: reorderColumns throws an IndexError exactly when some
position j below the column count holds an index of at least the column
count (the first such position is reported, with the matrix unchanged);
in-range order arrays are accepted even when they repeat or omit columns,
and each row is permuted cellwise as newrow(j) = oldrow(orderinds(j)). -/
theorem reorderColumns_amended (α : Type) [Inhabited α] (inds : List ℕ)
    (s : MatrixSt α) :
    ((reorderColumns inds s).2 = none ↔ ∀ j < s.m, inds.getD j 0 < s.m) ∧
    (∀ j, firstBadIndex inds s.m = some j →
      reorderColumns inds s = (s, some (.indexExc "sortinds" (inds.getD j 0) s.m))) ∧
    ((∀ j < s.m, inds.getD j 0 < s.m) → ∀ i j, i < s.n → j < s.m →
      (reorderColumns inds s).1.cells.getD (i * s.m + j) default
        = s.cells.getD (i * s.m + inds.getD j 0) default) := by
  have hiff : firstBadIndex inds s.m = none ↔ ∀ j < s.m, inds.getD j 0 < s.m := by
    unfold firstBadIndex
    rw [List.find?_eq_none]
    constructor
    · intro h j hj
      have := h j (List.mem_range.mpr hj)
      simp only [decide_eq_true_eq, not_le] at this
      exact this
    · intro h j hj
      have := h j (List.mem_range.mp hj)
      simp only [decide_eq_true_eq, not_le]
      exact this
  refine ⟨?_, ?_, ?_⟩
  · unfold reorderColumns
    rcases h : firstBadIndex inds s.m with _ | j
    · simp only []
      constructor
      · intro _
        exact hiff.mp h
      · intro _
        trivial
    · simp only []
      constructor
      · intro hc
        exact absurd hc (by simp)
      · intro hall
        exfalso
        have h2 : firstBadIndex inds s.m = none := hiff.mpr hall
        rw [h] at h2
        simp at h2
  · intro j h
    unfold reorderColumns
    rw [h]
  · intro hall i j hi hj
    unfold reorderColumns
    rw [hiff.mpr hall]
    simp only []
    unfold reorderCells
    have hpos : i * s.m + j < s.n * s.m := by
      calc i * s.m + j < (i + 1) * s.m := by
            simp [Nat.add_mul]
            omega
        _ ≤ s.n * s.m := Nat.mul_le_mul_right s.m (by omega)
    rw [List.getD_append _ _ _ _ (by rw [rangeFlatMap_length]; exact hpos)]
    rw [List.getD_eq_getElem?_getD, rangeFlatMap_getElem s.n s.m _ i j hi hj]
    rfl

/-- A matrix of 1 row and 2 columns holding 10 and 20. -/
def rcswap : MatrixSt ℕ :=
  { name := "rs", sharedname := "", n := 1, m := 2, n_actual := 1,
    dataAlloc := true, isShared := false, allocCount := 1, cells := [10, 20] }

/-- Witness for C9 amended: swapping the two columns of a 1 by 2 matrix
moves the old cell (0,1) into cell (0,0). -/
theorem reorderColumns_amended_witness :
    (reorderColumns [1, 0] rcswap).1.cells.getD (0 * rcswap.m + 0) default
      = rcswap.cells.getD (0 * rcswap.m + [1, 0].getD 0 0) default :=
  (reorderColumns_amended ℕ [1, 0] rcswap).2.2
    (by
      intro j hj
      simp only [rcswap] at hj
      interval_cases j <;> decide) 0 0 (by decide) (by decide)

unseal Rat.mul Rat.inv Rat.add Rat.sub in
/-- C6: Ray::intersectsTri either returns the sentinel (-1,-1,-1) — the
parallel, outside-the-triangle and behind-the-origin cases — or a triple
(t,u,v) with t positive, u and v nonnegative and u+v at most 1; and the
concrete ray from (0.2,0.2,1) toward (0,0,-1) against the triangle
(0,0,0),(1,0,0),(0,1,0) hits at exactly (t,u,v) = (1, 0.2, 0.2). -/
theorem intersectsTri_spec :
    (∀ pos dir v0 v1 v2 : vec3,
      intersectsTri pos dir v0 v1 v2 = (-1, -1, -1) ∨
      ∃ t u v : ℚ, intersectsTri pos dir v0 v1 v2 = (t, u, v) ∧
        0 < t ∧ 0 ≤ u ∧ 0 ≤ v ∧ u + v ≤ 1) ∧
    intersectsTri ⟨1/5, 1/5, 1⟩ ⟨0, 0, -1⟩ ⟨0, 0, 0⟩ ⟨1, 0, 0⟩ ⟨0, 1, 0⟩
      = (1, 1/5, 1/5) := by
  constructor
  · intro pos dir v0 v1 v2
    have heps : (0 : ℚ) < dEPSILON := by norm_num [dEPSILON]
    unfold intersectsTri
    dsimp only
    split_ifs with h1 h2 h3 h4
    · exact Or.inl rfl
    · exact Or.inl rfl
    · exact Or.inl rfl
    · push_neg at h2 h3
      exact Or.inr ⟨_, _, _, rfl, by linarith, by linarith [h2.1], by linarith [h3.1],
        by linarith [h3.2]⟩
    · exact Or.inl rfl
  · decide

/-- The edge loop records, in edge order, the entries of the straddled
edges until 6 have been taken. -/
theorem hexIntLoop_eq (val : ℚ) (vals : List ℚ) (l : List (ℕ × ℕ)) (c : ℕ) :
    hexIntLoop val vals l c =
      (l.filterMap (fun e =>
        if straddles val (vals.getD e.1 0) (vals.getD e.2 0) then
          some (hexIntersectEntry val vals e.1 e.2)
        else none)).take (6 - c) := by
  induction l generalizing c with
  | nil => simp [hexIntLoop]
  | cons e rest ih =>
    obtain ⟨i1, i2⟩ := e
    unfold hexIntLoop
    by_cases h6 : 6 ≤ c
    · rw [if_pos h6]
      have h0 : 6 - c = 0 := by omega
      rw [h0]
      simp
    · rw [if_neg h6]
      by_cases hs : straddles val (vals.getD i1 0) (vals.getD i2 0) = true
      · rw [if_pos hs]
        rw [List.filterMap_cons]
        simp only [hs, if_true]
        rw [show 6 - c = (6 - (c + 1)) + 1 from by omega, List.take_succ_cons, ih]
      · rw [if_neg hs]
        rw [List.filterMap_cons]
        simp only [hs, if_false]
        exact ih c

/-- The corner heights of the unit cube sliced by the plane z = 0.5: each
corner height is the z coordinate of that corner in the Hex1NL corner
order, so the plane test value is 0.5. -/
def unitCubeZ : List ℚ := [0, 0, 0, 0, 1, 1, 1, 1]

/-- Heights separating the two parity classes of the hexahedron edge graph:
every one of the 12 edges straddles the threshold 0.5. -/
def valsBipartite : List ℚ := [1, 0, 0, 1, 0, 1, 1, 0]

unseal Rat.mul Rat.inv Rat.add Rat.sub in
/-- C5 counterexample: with corner heights (1,0,0,1,0,1,1,0) and threshold
0.5 all 12 edges straddle the threshold, but the loop stops after
recording 6 entries, so the function does not record one entry for exactly
the straddled edges. -/
theorem hexValueIntersects_counterexample :
    (calculateHexValueIntersects (1/2) valsBipartite).length = 6 ∧
    (hexEdges.filter (fun e =>
      straddles (1/2) (valsBipartite.getD e.1 0) (valsBipartite.getD e.2 0))).length = 12 ∧
    calculateHexValueIntersects (1/2) valsBipartite
      ≠ straddledEdgeEntries (1/2) valsBipartite := by
  refine ⟨by decide, by decide, by decide⟩

unseal Rat.mul Rat.inv Rat.add Rat.sub in
/-- C5 amended: calculateHexValueIntersects records entries for the
straddled edges in the fixed edge order but only until 6 have been
recorded (so when more than 6 edges straddle, only the first 6 are
reported), and the count is never more than 6; slicing the unit cube at
height 0.5 yields exactly 4 crossings, one per vertical edge, each with
fraction 0.5. -/
theorem hexValueIntersects_amended :
    (∀ (val : ℚ) (vals : List ℚ),
      calculateHexValueIntersects val vals = (straddledEdgeEntries val vals).take 6 ∧
      (calculateHexValueIntersects val vals).length ≤ 6) ∧
    calculateHexValueIntersects (1/2) unitCubeZ =
      [⟨0, 4, 1/2⟩, ⟨1, 5, 1/2⟩, ⟨2, 6, 1/2⟩, ⟨3, 7, 1/2⟩] := by
  constructor
  · intro val vals
    have heq : calculateHexValueIntersects val vals
        = (straddledEdgeEntries val vals).take 6 := by
      unfold calculateHexValueIntersects straddledEdgeEntries
      rw [hexIntLoop_eq]
    refine ⟨heq, ?_⟩
    rw [heq]
    exact List.length_take_le _ _
  · decide

theorem vec3.add_def (a b : vec3) : a + b = ⟨a.x + b.x, a.y + b.y, a.z + b.z⟩ := rfl

/-- The search loop is the find-first over the table: the result is the
blend at the first table entry whose tetrahedron contains the point, the
sentinel when none does. -/
theorem hexSearchLoop_eq_find (pt n1 n2 n3 n4 n5 n6 n7 n8 : vec3)
    (l : List (vec3 × vec3 × vec3 × vec3)) :
    hexSearchLoop pt n1 n2 n3 n4 n5 n6 n7 n8 l =
      match l.find? (tetContains pt n1 n2 n3 n4 n5 n6 n7 n8) with
      | some tt => tetBlendAt pt n1 n2 n3 n4 n5 n6 n7 n8 tt
      | none => ⟨-1, -1, -1⟩ := by
  induction l with
  | nil => rfl
  | cons tt rest ih =>
    show (if tetContains pt n1 n2 n3 n4 n5 n6 n7 n8 tt = true
        then tetBlendAt pt n1 n2 n3 n4 n5 n6 n7 n8 tt
        else hexSearchLoop pt n1 n2 n3 n4 n5 n6 n7 n8 rest) = _
    by_cases h : tetContains pt n1 n2 n3 n4 n5 n6 n7 n8 tt = true
    · rw [if_pos h, List.find?_cons_of_pos rest h]
    · rw [if_neg h, List.find?_cons_of_neg rest (by simpa using h), ih]

/-- The search loop result is the sentinel or the blend at some table entry
whose tetrahedron passes the containment test. -/
theorem hexSearchLoop_cases (pt n1 n2 n3 n4 n5 n6 n7 n8 : vec3)
    (l : List (vec3 × vec3 × vec3 × vec3)) :
    hexSearchLoop pt n1 n2 n3 n4 n5 n6 n7 n8 l = ⟨-1, -1, -1⟩ ∨
    ∃ tt ∈ l, tetContains pt n1 n2 n3 n4 n5 n6 n7 n8 tt = true ∧
      hexSearchLoop pt n1 n2 n3 n4 n5 n6 n7 n8 l
        = tetBlendAt pt n1 n2 n3 n4 n5 n6 n7 n8 tt := by
  induction l with
  | nil => exact Or.inl rfl
  | cons tt rest ih =>
    have hshow : hexSearchLoop pt n1 n2 n3 n4 n5 n6 n7 n8 (tt :: rest)
        = if tetContains pt n1 n2 n3 n4 n5 n6 n7 n8 tt = true
          then tetBlendAt pt n1 n2 n3 n4 n5 n6 n7 n8 tt
          else hexSearchLoop pt n1 n2 n3 n4 n5 n6 n7 n8 rest := rfl
    rw [hshow]
    by_cases h : tetContains pt n1 n2 n3 n4 n5 n6 n7 n8 tt = true
    · rw [if_pos h]
      exact Or.inr ⟨tt, List.mem_cons_self tt rest, h, rfl⟩
    · rw [if_neg h]
      rcases ih with hs | ⟨tt2, htt2, hok2, heq2⟩
      · exact Or.inl hs
      · exact Or.inr ⟨tt2, List.mem_cons_of_mem tt htt2, hok2, heq2⟩

/-- On a contained tetrahedron the blend of the corner-xi triples of any of
the 5 table entries by the Tet1NL coefficients has no negative component. -/
theorem tetXiBlend_nonneg (tt : vec3 × vec3 × vec3 × vec3) (htt : tt ∈ divtets)
    (xi : vec3) (h : tetXiOk xi = true) :
    0 ≤ (tetXiBlend tt xi).x ∧ 0 ≤ (tetXiBlend tt xi).y ∧ 0 ≤ (tetXiBlend tt xi).z := by
  unfold tetXiOk vec3.isInUnitCube at h
  simp only [Bool.and_eq_true, decide_eq_true_eq] at h
  obtain ⟨⟨hx0, hx1, hy0, hy1, hz0, hz1⟩, hsum⟩ := h
  simp only [divtets, List.mem_cons, List.mem_singleton, List.not_mem_nil, or_false] at htt
  rcases htt with rfl | rfl | rfl | rfl | rfl <;>
    (unfold tetXiBlend basis_Tet1NL
     simp only [vec3.add_def, vec3.smul]
     refine ⟨?_, ?_, ?_⟩ <;> (dsimp only; linarith))

/-- C1: pointSearchLinHex equals the spec formulation — after the
bounding-box pre-test it takes the FIRST of the 5 decomposition tetrahedra
whose tetrahedron-search xi lies in the unit cube with component sum at
most 1 (within epsilon) and blends the corner-xi triples of that entry by
the Tet1NL coefficients of xi, returning the sentinel (-1,-1,-1) when the
pre-test fails or no tetrahedron contains the point — and every returned
vector is either the sentinel or componentwise nonnegative, so a negative
component always means not found. -/
theorem pointSearchLinHex_spec :
    (∀ pt n1 n2 n3 n4 n5 n6 n7 n8 : vec3,
      pointSearchLinHex pt n1 n2 n3 n4 n5 n6 n7 n8
        = pointSearchLinHexSpec pt n1 n2 n3 n4 n5 n6 n7 n8) ∧
    (∀ pt n1 n2 n3 n4 n5 n6 n7 n8 : vec3,
      pointSearchLinHex pt n1 n2 n3 n4 n5 n6 n7 n8 = ⟨-1, -1, -1⟩ ∨
      (0 ≤ (pointSearchLinHex pt n1 n2 n3 n4 n5 n6 n7 n8).x ∧
       0 ≤ (pointSearchLinHex pt n1 n2 n3 n4 n5 n6 n7 n8).y ∧
       0 ≤ (pointSearchLinHex pt n1 n2 n3 n4 n5 n6 n7 n8).z)) := by
  constructor
  · intro pt n1 n2 n3 n4 n5 n6 n7 n8
    unfold pointSearchLinHex pointSearchLinHexSpec
    dsimp only
    split_ifs with hb
    · exact hexSearchLoop_eq_find pt n1 n2 n3 n4 n5 n6 n7 n8 divtets
    · rfl
  · intro pt n1 n2 n3 n4 n5 n6 n7 n8
    unfold pointSearchLinHex
    dsimp only
    split_ifs with hb
    swap
    · exact Or.inl rfl
    · rcases hexSearchLoop_cases pt n1 n2 n3 n4 n5 n6 n7 n8 divtets with
        hs | ⟨tt, htt, hok, heq⟩
      · exact Or.inl hs
      · rw [heq]
        exact Or.inr (tetXiBlend_nonneg tt htt _ (by simpa [tetContains] using hok))

end Eidolon
